import Mathlib

/-
Verification of the BBB decision-tree classification pipeline
(DecisionTree_Classification.ipynb).

The notebook is a thin analysis script over pandas / RDKit / scikit-learn:
  cell-5   loader: column selection, dropna on the label, BBB_class derivation
  cell-7   per-record descriptor computation (MolFromSmiles + six descriptors)
  cell-10  feature selection (descriptors_selected) and x/y extraction
  cell-12  train/validation/test split via train_test_split
  cell-14/18/20  DecisionTreeClassifier fit / score, depth sweep
  cell-22/24  confusion matrix, precision, recall

Pure data transformations are embedded as Lean functions over lists; the
external collaborators (RDKit parser and descriptor calculators) are
parameters, and the library routines the script calls (train_test_split,
confusion_matrix, precision_score, recall_score) are embedded from their
documented behaviour.  The decision-tree induction itself lives inside
scikit-learn; it is modelled from the spec's 4.4 contract where a claim
needs it.
-/

/-! ## Loader (cell-5) -/

/-- One row of the raw tab-separated input table.  Every cell can be missing
(pandas NaN), including the SMILES string and the categorical label. -/
structure RawRow where
  compoundName : Option String
  iupacName : Option String
  smiles : Option String
  bbbLabel : Option String
deriving DecidableEq

/-- The raw table: its header (column names) and its rows. -/
structure RawTable where
  cols : List String
  rows : List RawRow
deriving DecidableEq

/-- The four columns cell-5 selects with table.loc. -/
def requiredCols : List String :=
  ["compound_name", "IUPAC_name", "SMILES", "BBB+/BBB-"]

/-- A row after dropna(subset="BBB+/BBB-"): the label is present, and the
derived binary BBB_class column is attached. -/
structure LoadedRow where
  compoundName : Option String
  iupacName : Option String
  smiles : Option String
  bbbLabel : String
  bbbClass : Nat
deriving DecidableEq

/-- Attach BBB_class to a retained row: table.loc[:,'BBB_class'] = 0 followed
by table.loc[table['BBB+/BBB-'] == 'BBB+', 'BBB_class'] = 1. -/
def mkLoaded (r : RawRow) (b : String) : LoadedRow :=
  { compoundName := r.compoundName
    iupacName := r.iupacName
    smiles := r.smiles
    bbbLabel := b
    bbbClass := if b = "BBB+" then 1 else 0 }

/-- table.dropna(subset="BBB+/BBB-") followed by reset_index(drop=True):
rows whose label is missing are removed, the rest keep their order and are
reindexed contiguously (list position = new index). -/
def dropnaLabel (rows : List RawRow) : List LoadedRow :=
  rows.filterMap (fun r => r.bbbLabel.map (mkLoaded r))

/-- tmp.loc[:, (compound_name, IUPAC_name, SMILES, BBB+/BBB-)]: pandas raises
KeyError when any requested column is absent from the header. -/
def selectColumns (t : RawTable) : Except String (List RawRow) :=
  if requiredCols.all (fun c => t.cols.contains c) then Except.ok t.rows
  else Except.error "KeyError"

/-- The whole of cell-5: column selection, then label filtering and
BBB_class derivation.  Note there is no emptiness check on the result. -/
def loadTable (t : RawTable) : Except String (List LoadedRow) :=
  match selectColumns t with
  | Except.error e => Except.error e
  | Except.ok rows => Except.ok (dropnaLabel rows)

/-- True exactly on the loader's failure outcome. -/
def isDataError (e : Except String (List LoadedRow)) : Bool :=
  match e with
  | Except.error _ => true
  | Except.ok _ => false

/-! ## Feature extractor (cell-7) -/

/-- An RDKit molecular representation, kept abstract: the pipeline only ever
passes it to the descriptor calculators. -/
structure Mol where
  graph : String
deriving DecidableEq

/-- The six external descriptor calculators of cell-7, pure functions of the
molecular representation (spec 4.2 / 6). -/
structure DescCalc where
  exactMolWt : Mol → ℚ
  calcTPSA : Mol → ℚ
  numRotatableBonds : Mol → ℚ
  numHDonors : Mol → ℚ
  numHAcceptors : Mol → ℚ
  molLogP : Mol → ℚ

/-- A row of the augmented table after cell-7: the six numeric descriptor
columns, in the order the loop writes them, plus the label. -/
structure DescRow where
  bbbClass : Nat
  molWt : ℚ
  tpsa : ℚ
  nRotB : ℚ
  hbd : ℚ
  hba : ℚ
  logP : ℚ
deriving DecidableEq

/-- One iteration of the cell-7 loop.  A missing SMILES cell makes
Chem.MolFromSmiles raise immediately (error payload none); an unparseable
SMILES makes MolFromSmiles return None and the first descriptor call on None
raise (error payload: the offending string).  Either way the iteration
produces no descriptor row. -/
def extractRow (parse : String → Option Mol) (dc : DescCalc) (r : LoadedRow) :
    Except (Option String) DescRow :=
  match r.smiles with
  | none => Except.error none
  | some s =>
    match parse s with
    | none => Except.error (some s)
    | some m =>
      Except.ok
        { bbbClass := r.bbbClass
          molWt := dc.exactMolWt m
          tpsa := dc.calcTPSA m
          nRotB := dc.numRotatableBonds m
          hbd := dc.numHDonors m
          hba := dc.numHAcceptors m
          logP := dc.molLogP m }

/-- The cell-7 loop over the whole table: the uncaught exception of the first
failing record aborts the run, so the loop either fails on the first bad
record or returns one descriptor row per input row, in order. -/
def extractTable (parse : String → Option Mol) (dc : DescCalc) :
    List LoadedRow → Except (Option String) (List DescRow)
  | [] => Except.ok []
  | r :: rs =>
    match extractRow parse dc r with
    | Except.error e => Except.error e
    | Except.ok d =>
      match extractTable parse dc rs with
      | Except.error e => Except.error e
      | Except.ok ds => Except.ok (d :: ds)

/-! ## Feature selection (cell-10) -/

/-- The six descriptor columns cell-7 adds, in the order they are written. -/
def descriptors_all : List String :=
  ["MolWt", "TPSA", "nRotB", "HBD", "HBA", "LogP"]

/-- descriptors_selected of cell-10, verbatim from the source. -/
def descriptors_selected : List String :=
  ["MolWt", "TPSA", "HBD", "HBA", "LogP"]

/-- Column lookup on a descriptor row, as table.loc column access. -/
def descriptorColumn (d : DescRow) (c : String) : ℚ :=
  if c = "MolWt" then d.molWt
  else if c = "TPSA" then d.tpsa
  else if c = "nRotB" then d.nRotB
  else if c = "HBD" then d.hbd
  else if c = "HBA" then d.hba
  else if c = "LogP" then d.logP
  else 0

/-- One row of x = table.loc[:, descriptors_selected].values. -/
def featureVector (d : DescRow) : List ℚ :=
  descriptors_selected.map (descriptorColumn d)

/-- The feature matrix x handed to the splitter and the classifier. -/
def xMatrix (ds : List DescRow) : List (List ℚ) :=
  ds.map featureVector

/-- The label vector y = table.loc[:, ['BBB_class']].values. -/
def yVector (ds : List DescRow) : List Nat :=
  ds.map (fun d => d.bbbClass)

/-! ## Evaluator (cells 22 and 24)

True/predicted label pairs are lists of (y_true, y_pred); the labels the
pipeline produces are the integers 0 and 1.  confusion_matrix(y_true, y_pred)
for binary 0/1 labels is the 2 by 2 matrix C with C[i][j] = count(true=i,
pred=j), and cm.ravel() lists it row-major as (tn, fp, fn, tp). -/

/-- Count the pairs with the given true and predicted label. -/
def countPairs (l : List (Nat × Nat)) (t p : Nat) : Nat :=
  (l.filter (fun q => q.1 == t && q.2 == p)).length

def tnOf (l : List (Nat × Nat)) : Nat := countPairs l 0 0
def fpOf (l : List (Nat × Nat)) : Nat := countPairs l 0 1
def fnOf (l : List (Nat × Nat)) : Nat := countPairs l 1 0
def tpOf (l : List (Nat × Nat)) : Nat := countPairs l 1 1

/-- tn, fp, fn, tp = cm.ravel() of cell-24. -/
def cmRavel (l : List (Nat × Nat)) : Nat × Nat × Nat × Nat :=
  (tnOf l, fpOf l, fnOf l, tpOf l)

/-- Every pair carries binary labels (the pipeline's labels are 0/1). -/
def allBinary (l : List (Nat × Nat)) : Bool :=
  l.all (fun q => (q.1 == 0 || q.1 == 1) && (q.2 == 0 || q.2 == 1))

/-- sklearn.metrics.precision_score with its default zero_division.  When
tp + fp = 0 the returned value is 0.0. -/
def precision_score (l : List (Nat × Nat)) : ℚ :=
  if tpOf l + fpOf l = 0 then 0
  else (tpOf l : ℚ) / ((tpOf l : ℚ) + (fpOf l : ℚ))

/-- sklearn.metrics.recall_score with its default zero_division. -/
def recall_score (l : List (Nat × Nat)) : ℚ :=
  if tpOf l + fnOf l = 0 then 0
  else (tpOf l : ℚ) / ((tpOf l : ℚ) + (fnOf l : ℚ))

/-- True when precision_score's default zero_division makes it emit an
UndefinedMetricWarning (the denominator is zero). -/
def precisionWarns (l : List (Nat × Nat)) : Bool :=
  tpOf l + fpOf l == 0

/-- True when recall_score emits an UndefinedMetricWarning. -/
def recallWarns (l : List (Nat × Nat)) : Bool :=
  tpOf l + fnOf l == 0

/-- Modelled from the spec: the evaluator of spec 4.6 surfaces a
zero-denominator precision as an explicit undefined value (none, standing
for NaN), never as a number. -/
def specPrecision (l : List (Nat × Nat)) : Option ℚ :=
  if tpOf l + fpOf l = 0 then none
  else some ((tpOf l : ℚ) / ((tpOf l : ℚ) + (fpOf l : ℚ)))

/-- Modelled from the spec: the spec 4.6 recall, undefined when tp+fn = 0. -/
def specRecall (l : List (Nat × Nat)) : Option ℚ :=
  if tpOf l + fnOf l = 0 then none
  else some ((tpOf l : ℚ) / ((tpOf l : ℚ) + (fnOf l : ℚ)))

/-! ## Splitter (cell-12)

train_test_split(x, y, test_size, random_state) draws a seeded permutation of
the index range [0, N), takes the first ceil(N * test_size) shuffled indices
as the test part and the remaining ones as the train part.  Cell-12 applies
it twice: first with test_size 0.2 on all N records, then with test_size 0.25
on the remaining pool.  The permutations the seeded RNG produces are
arbitrary-but-fixed; every property below is proved for all permutations. -/

/-- ceil(n * 0.2), the size of the held-out test part. -/
def nTestMain (n : Nat) : Nat := (n + 4) / 5

/-- ceil(n * 0.25), the size of the validation part of the second split. -/
def nTestSecond (n : Nat) : Nat := (n + 3) / 4

/-- Test indices: the first ceil(0.2 N) entries of the first shuffle. -/
def testIdx (p1 : List Nat) : List Nat := p1.take (nTestMain p1.length)

/-- The pool (x_train of the first split) the second split partitions. -/
def poolIdx (p1 : List Nat) : List Nat := p1.drop (nTestMain p1.length)

/-- Validation indices: the first ceil(0.25 |pool|) entries of the second
shuffle. -/
def validIdx (p1 p2 : List Nat) : List Nat :=
  p2.take (nTestSecond (poolIdx p1).length)

/-- Train indices: the rest of the second shuffle. -/
def trainIdx (p1 p2 : List Nat) : List Nat :=
  p2.drop (nTestSecond (poolIdx p1).length)

/-! ## Trainer (cells 14, 18, 20)

Modelled from the spec: the decision-tree induction runs inside
scikit-learn's DecisionTreeClassifier, whose code is not part of this
repository.  Spec 4.4 describes it: a hierarchy of axis-aligned threshold
splits, each branch terminated at the depth bound or at a pure/empty leaf;
the split at a node is chosen from the samples reaching that node alone
(entropy-based, ties broken deterministically); leaves store the majority
class.  `fit` below is that contract, parametric in the node-local split
chooser; the pipeline's labels are the binary BBB_class, carried as Bool
(true = 1 = BBB+). -/

/-- A training or test sample: feature vector and binary label. -/
structure Sample where
  x : List ℚ
  y : Bool
deriving DecidableEq

/-- Count of the samples carrying label c. -/
def countL (S : List Sample) (c : Bool) : Nat :=
  (S.filter (fun s => s.y == c)).length

/-- The majority class of a sample set: argmax of the class counts, ties to
class 0 (false), as numpy argmax takes the first maximum. -/
def majority (S : List Sample) : Bool :=
  decide (countL S false < countL S true)

/-- Zero entropy or zero samples: the node becomes a leaf immediately. -/
def isPure (S : List Sample) : Bool :=
  countL S false == 0 || countL S true == 0

/-- A fitted decision tree: axis-aligned threshold nodes and class leaves. -/
inductive DTree where
  | leaf (c : Bool)
  | node (f : Nat) (t : ℚ) (l r : DTree)
deriving DecidableEq

/-- Route a sample down the tree by its threshold comparisons. -/
def predict (tr : DTree) (x : List ℚ) : Bool :=
  match tr with
  | DTree.leaf c => c
  | DTree.node f t l r => if x.getD f 0 ≤ t then predict l x else predict r x

/-- Does the sample go to the left child of a (feature, threshold) split? -/
def goesLeft (f : Nat) (t : ℚ) (s : Sample) : Bool :=
  decide (s.x.getD f 0 ≤ t)

/-- Modelled from the spec: greedy tree induction under a maximum depth
(spec 4.4), parametric in the node-local split chooser.  The chooser sees
only the samples reaching the node — as scikit-learn's splitter does — and
returns none when no split is available. -/
def fit (ch : List Sample → Option (Nat × ℚ)) : Nat → List Sample → DTree
  | 0, S => DTree.leaf (majority S)
  | d + 1, S =>
    if isPure S then DTree.leaf (majority S)
    else
      match ch S with
      | none => DTree.leaf (majority S)
      | some (f, t) =>
        DTree.node f t
          (fit ch d (S.filter (goesLeft f t)))
          (fit ch d (S.filter (fun s => !goesLeft f t s)))

/-- Number of samples of S the tree classifies correctly. -/
def correctCount (tr : DTree) (S : List Sample) : Nat :=
  (S.filter (fun s => predict tr s.x == s.y)).length

/-- clf.score: the fraction of predictions equal to the true labels. -/
def score (tr : DTree) (S : List Sample) : ℚ :=
  (correctCount tr S : ℚ) / (S.length : ℚ)

/-- The per-node weighted impurity of a candidate split, parametric in the
impurity measure (entropy in the pipeline): each child weighted by its
sample count, the measure applied to the child's class counts. -/
def weightedImpurity (imp : Nat → Nat → ℚ) (S : List Sample) (f : Nat) (t : ℚ) : ℚ :=
  ((S.filter (goesLeft f t)).length : ℚ)
      * imp (countL (S.filter (goesLeft f t)) false) (countL (S.filter (goesLeft f t)) true)
    + ((S.filter (fun s => !goesLeft f t s)).length : ℚ)
      * imp (countL (S.filter (fun s => !goesLeft f t s)) false)
            (countL (S.filter (fun s => !goesLeft f t s)) true)

/-- Information gain of a split, scaled by the node's sample count and
parametric in the impurity measure: parent impurity minus the weighted
child impurity.  Comparing gains of two splits of one node is comparing
their weighted impurities, whatever the measure. -/
def infoGainW (imp : Nat → Nat → ℚ) (S : List Sample) (f : Nat) (t : ℚ) : ℚ :=
  (S.length : ℚ) * imp (countL S false) (countL S true) - weightedImpurity imp S f t

/-! ## Concrete inputs used by counterexamples and witnesses -/

/-- A descriptor row of an aspirin-like compound. -/
def rowA : DescRow :=
  { bbbClass := 1, molWt := 180, tpsa := 63, nRotB := 3, hbd := 1, hba := 3, logP := 1 }

/-- The same row with a different rotatable-bond count. -/
def rowB : DescRow :=
  { bbbClass := 1, molWt := 180, tpsa := 63, nRotB := 7, hbd := 1, hba := 3, logP := 1 }

/-- A raw table with every required column present whose single row has no
categorical label. -/
def labelFreeTable : RawTable :=
  { cols := ["compound_name", "IUPAC_name", "SMILES", "BBB+/BBB-"]
    rows := [{ compoundName := some "aspirin"
               iupacName := some "2-acetyloxybenzoic acid"
               smiles := some "CC(=O)Oc1ccccc1C(=O)O"
               bbbLabel := none }] }

/-- A raw row with a label but a missing SMILES cell. -/
def noSmilesRow : RawRow :=
  { compoundName := some "x", iupacName := some "y"
    smiles := none, bbbLabel := some "BBB+" }

/-- Ten (y_true, y_pred) pairs: 6 true positives, 1 false positive,
2 false negatives, 1 true negative. -/
def sample10 : List (Nat × Nat) :=
  [(1, 1), (1, 1), (1, 1), (1, 1), (1, 1), (1, 1), (0, 1), (1, 0), (1, 0), (0, 0)]

/-! ## Claim C1: the classifier's feature vector -/

/-- Claim C1, counterexample: the feature vector cell-10 builds is blind to
the rotatable-bond count — two descriptor rows differing only in nRotB give
the same feature vector — and it has 5 entries, not the 6 the claim states:
descriptors_selected omits nRotB. -/
theorem featureVector_six_descriptors_cex :
    featureVector rowA = featureVector rowB
    ∧ rowA.nRotB ≠ rowB.nRotB
    ∧ (featureVector rowA).length = 5
    ∧ descriptors_all.length = 6
    ∧ descriptors_selected ≠ descriptors_all := by decide

/-- Claim C1 (amended): the feature vector handed to fit/predict/score is the
ordered 5-tuple (MolWt, TPSA, HBD, HBA, LogP); nRotB is computed in cell-7
but excluded by descriptors_selected, so the vector never depends on it. -/
theorem featureVector_selected_five (d : DescRow) (v : ℚ) :
    featureVector d = [d.molWt, d.tpsa, d.hbd, d.hba, d.logP]
    ∧ (featureVector d).length = 5
    ∧ featureVector { d with nRotB := v } = featureVector d := by
  refine ⟨rfl, rfl, rfl⟩

/-! ## Claim C3: dropna, reindex, binary label -/

/-- Claim C3: the loader keeps exactly the rows whose categorical label is
present, in their original order and contiguously reindexed (the filtered
rows mapped in place), and every retained row's BBB_class is 1 exactly when
the label is "BBB+" and 0 for every other value. -/
theorem loader_dropna_reindex_label (rows : List RawRow) :
    dropnaLabel rows
        = (rows.filter (fun r => r.bbbLabel.isSome)).map
            (fun r => mkLoaded r (r.bbbLabel.getD ""))
    ∧ (∀ r', r' ∈ dropnaLabel rows →
        ((r'.bbbClass = 1 ↔ r'.bbbLabel = "BBB+")
          ∧ (r'.bbbLabel ≠ "BBB+" → r'.bbbClass = 0))) := by
  constructor
  · induction rows with
    | nil => rfl
    | cons a rs ih =>
      cases h : a.bbbLabel with
      | none => simpa [dropnaLabel, List.filterMap_cons, List.filter_cons, h] using ih
      | some b => simpa [dropnaLabel, List.filterMap_cons, List.filter_cons, h] using ih
  · intro r' hr'
    unfold dropnaLabel at hr'
    rw [List.mem_filterMap] at hr'
    obtain ⟨r, _, hmap⟩ := hr'
    cases h : r.bbbLabel with
    | none => rw [h] at hmap; exact absurd hmap (by simp)
    | some b =>
      rw [h] at hmap
      simp only [Option.map_some'] at hmap
      obtain rfl := Option.some.inj hmap
      by_cases hb : b = "BBB+" <;> simp [mkLoaded, hb]

/-! ## Claim C6: confusion-matrix cells -/

/-- The four confusion cells of binary-labelled pairs partition them. -/
lemma cm_total (l : List (Nat × Nat)) (hbin : allBinary l = true) :
    tpOf l + fpOf l + fnOf l + tnOf l = l.length := by
  induction l with
  | nil => rfl
  | cons q rs ih =>
    simp only [allBinary, List.all_cons, Bool.and_eq_true, Bool.or_eq_true,
      beq_iff_eq] at hbin
    obtain ⟨⟨h1, h2⟩, hrs⟩ := hbin
    have ih' := ih hrs
    unfold tpOf fpOf fnOf tnOf countPairs at ih' ⊢
    rcases h1 with h1 | h1 <;> rcases h2 with h2 | h2 <;>
      simp [List.filter_cons, h1, h2] <;> omega

/-- Claim C6: for binary labels the four cells counted as TN, FP, FN, TP sum
to the number of evaluated pairs, and on the concrete 10-sample scenario
cm.ravel() is (1, 1, 2, 6) with precision 6/7 and recall 6/8. -/
theorem confusion_matrix_cells (l : List (Nat × Nat))
    (hbin : allBinary l = true) (hN : 0 < l.length) :
    tpOf l + fpOf l + fnOf l + tnOf l = l.length
    ∧ cmRavel sample10 = (1, 1, 2, 6)
    ∧ precision_score sample10 = 6 / 7
    ∧ recall_score sample10 = 6 / 8 := by
  refine ⟨cm_total l hbin, by decide, ?_, ?_⟩
  · have htp : tpOf sample10 = 6 := by decide
    have hfp : fpOf sample10 = 1 := by decide
    unfold precision_score
    rw [htp, hfp]
    norm_num
  · have htp : tpOf sample10 = 6 := by decide
    have hfn : fnOf sample10 = 2 := by decide
    unfold recall_score
    rw [htp, hfn]
    norm_num

/-- Claim C6, witness: the theorem applied to the 10-sample scenario. -/
theorem confusion_matrix_cells_witness :
    tpOf sample10 + fpOf sample10 + fnOf sample10 + tnOf sample10 = sample10.length
    ∧ cmRavel sample10 = (1, 1, 2, 6)
    ∧ precision_score sample10 = 6 / 7
    ∧ recall_score sample10 = 6 / 8 :=
  confusion_matrix_cells sample10 (by decide) (by decide)

/-! ## Claim C7: zero-denominator precision and recall -/

/-- Claim C7, counterexample: on pairs with an empty denominator the code's
precision_score and recall_score (default zero_division) return the number
0, where the evaluator the spec describes surfaces an undefined value. -/
theorem precision_zero_denominator_cex :
    precision_score [(0, 0)] = 0
    ∧ recall_score [(0, 1)] = 0
    ∧ precisionWarns [(0, 0)] = true
    ∧ recallWarns [(0, 1)] = true
    ∧ specPrecision [(0, 0)] = none
    ∧ specRecall [(0, 1)] = none := by decide

/-- Claim C7 (amended): precision = TP/(TP+FP) and recall = TP/(TP+FN) when
the denominator is nonzero; a zero denominator makes the sklearn calls of
cell-24 return 0.0 while emitting an UndefinedMetricWarning — the coercion
to 0 is warned about, but the surfaced value is 0, not NaN. -/
theorem precision_recall_zero_division (l : List (Nat × Nat)) :
    (tpOf l + fpOf l = 0 →
        precision_score l = 0 ∧ precisionWarns l = true ∧ specPrecision l = none)
    ∧ (tpOf l + fpOf l ≠ 0 →
        precision_score l = (tpOf l : ℚ) / ((tpOf l : ℚ) + (fpOf l : ℚ))
          ∧ precisionWarns l = false
          ∧ specPrecision l = some (precision_score l))
    ∧ (tpOf l + fnOf l = 0 →
        recall_score l = 0 ∧ recallWarns l = true ∧ specRecall l = none)
    ∧ (tpOf l + fnOf l ≠ 0 →
        recall_score l = (tpOf l : ℚ) / ((tpOf l : ℚ) + (fnOf l : ℚ))
          ∧ recallWarns l = false
          ∧ specRecall l = some (recall_score l)) := by
  refine ⟨fun h => ?_, fun h => ?_, fun h => ?_, fun h => ?_⟩ <;>
    simp [precision_score, recall_score, precisionWarns, recallWarns,
      specPrecision, specRecall, h]

/-! ## Claim C9: loader failure conditions -/

/-- Claim C9, counterexample: a table with every required column present
whose rows all lack the categorical label loads without any error — the
loader returns the empty record list instead of aborting, so emptiness
after label filtering is not a loader failure. -/
theorem loader_empty_after_filter_cex :
    loadTable labelFreeTable = Except.ok []
    ∧ isDataError (loadTable labelFreeTable) = false :=
  ⟨rfl, rfl⟩

/-- Claim C9 (amended): the loader fails — before any feature extraction —
exactly when a required column is absent from the input table; a dataset
that is empty after dropping unlabelled rows is not detected and is passed
on as an empty record list. -/
theorem loader_error_iff_missing_column (t : RawTable) :
    (isDataError (loadTable t) = true
        ↔ ¬ (requiredCols.all (fun c => t.cols.contains c) = true))
    ∧ (∀ out, loadTable t = Except.ok out → out = dropnaLabel t.rows) := by
  unfold loadTable selectColumns isDataError
  by_cases h : (requiredCols.all fun c => t.cols.contains c) = true
  · rw [if_pos h]
    exact ⟨by simp only [h]; decide, fun out hout => (Except.ok.inj hout).symm⟩
  · have h' : (requiredCols.all fun c => t.cols.contains c) = false :=
      Bool.not_eq_true _ ▸ Bool.of_not_eq_true h
    rw [if_neg h]
    exact ⟨by simp only [h']; decide, fun out hout => nomatch hout⟩

/-! ## Claim C10: a missing SMILES passes the loader and reaches the parser -/

/-- Claim C10: the loader filters on the label column only, so a row whose
SMILES cell is missing but whose label is present is retained (with
BBB_class 1 for BBB+); feature extraction then applies the structural parser
to the missing value and takes the error branch, whatever the parser and the
descriptor calculators are. -/
theorem missing_smiles_reaches_extractor (parse : String → Option Mol) (dc : DescCalc) :
    dropnaLabel [noSmilesRow] = [mkLoaded noSmilesRow "BBB+"]
    ∧ (mkLoaded noSmilesRow "BBB+").smiles = none
    ∧ (mkLoaded noSmilesRow "BBB+").bbbClass = 1
    ∧ extractRow parse dc (mkLoaded noSmilesRow "BBB+") = Except.error none
    ∧ extractTable parse dc (dropnaLabel [noSmilesRow]) = Except.error none :=
  ⟨rfl, rfl, by decide, rfl, rfl⟩

/-! ## Claim C2: the three split partitions -/

/-- Claim C2: whatever permutations the seeded RNG of the two
train_test_split calls produces, the train, validation and test index lists
together are a permutation of the full index set [0, N) — so they are
pairwise disjoint, duplicate-free and exhaustive — and for N = 100 their
sizes are 60, 20 and 20. -/
theorem split_partition (N : Nat) (p1 p2 : List Nat)
    (h1 : p1.Perm (List.range N)) (h2 : p2.Perm (poolIdx p1)) :
    (trainIdx p1 p2 ++ validIdx p1 p2 ++ testIdx p1).Perm (List.range N)
    ∧ (trainIdx p1 p2).Nodup ∧ (validIdx p1 p2).Nodup ∧ (testIdx p1).Nodup
    ∧ (trainIdx p1 p2).Disjoint (validIdx p1 p2)
    ∧ (trainIdx p1 p2).Disjoint (testIdx p1)
    ∧ (validIdx p1 p2).Disjoint (testIdx p1)
    ∧ (N = 100 →
        (trainIdx p1 p2).length = 60 ∧ (validIdx p1 p2).length = 20
          ∧ (testIdx p1).length = 20) := by
  have hval : validIdx p1 p2 ++ trainIdx p1 p2 = p2 := List.take_append_drop _ _
  have htest : testIdx p1 ++ poolIdx p1 = p1 := List.take_append_drop _ _
  have hA : (trainIdx p1 p2 ++ validIdx p1 p2).Perm p2 := by
    conv_rhs => rw [← hval]
    exact List.perm_append_comm
  have hB : (trainIdx p1 p2 ++ validIdx p1 p2).Perm (poolIdx p1) := hA.trans h2
  have hC : (trainIdx p1 p2 ++ validIdx p1 p2 ++ testIdx p1).Perm
      (poolIdx p1 ++ testIdx p1) := hB.append_right (testIdx p1)
  have hD : (poolIdx p1 ++ testIdx p1).Perm p1 := by
    conv_rhs => rw [← htest]
    exact List.perm_append_comm
  have hperm := (hC.trans hD).trans h1
  have hnd : (trainIdx p1 p2 ++ validIdx p1 p2 ++ testIdx p1).Nodup :=
    hperm.nodup_iff.mpr (List.nodup_range N)
  rw [List.nodup_append, List.nodup_append] at hnd
  obtain ⟨⟨hndT, hndV, hdTV⟩, hndQ, hdQ⟩ := hnd
  refine ⟨hperm, hndT, hndV, hndQ, hdTV, ?_, ?_, ?_⟩
  · exact fun a ha hb => hdQ (List.mem_append_left _ ha) hb
  · exact fun a ha hb => hdQ (List.mem_append_right _ ha) hb
  · intro hN
    subst hN
    have hl1 : p1.length = 100 := by rw [h1.length_eq, List.length_range]
    have hpool : (poolIdx p1).length = 80 := by
      unfold poolIdx nTestMain
      rw [List.length_drop, hl1]
    have hl2 : p2.length = 80 := by rw [h2.length_eq, hpool]
    refine ⟨?_, ?_, ?_⟩
    · unfold trainIdx nTestSecond
      rw [List.length_drop, hl2, hpool]
    · unfold validIdx nTestSecond
      rw [List.length_take, hl2, hpool]
      decide
    · unfold testIdx nTestMain
      rw [List.length_take, hl1]
      decide

/-- The identity permutation of the 100-record index range. -/
def permMain : List Nat := List.range 100

/-- The second shuffle, taken as the pool itself. -/
def permSecond : List Nat := poolIdx permMain

/-- Claim C2, witness: the partition property at N = 100 with concrete
permutations. -/
theorem split_partition_witness :
    (trainIdx permMain permSecond ++ validIdx permMain permSecond
        ++ testIdx permMain).Perm (List.range 100)
    ∧ (trainIdx permMain permSecond).length = 60
    ∧ (validIdx permMain permSecond).length = 20
    ∧ (testIdx permMain).length = 20 := by
  have h := split_partition 100 permMain permSecond
    (List.Perm.refl permMain) (List.Perm.refl permSecond)
  exact ⟨h.1, (h.2.2.2.2.2.2.2 rfl).1, (h.2.2.2.2.2.2.2 rfl).2.1,
    (h.2.2.2.2.2.2.2 rfl).2.2⟩

/-! ## Depth-capacity monotonicity (spec 8, claim C5)

The split a node receives depends only on the samples reaching it, never on
the remaining depth budget, so the depth-(D+1) tree refines the partition of
the depth-D tree; each refined leaf's majority vote matches at least as many
training samples as its parent's.  Everything below is proved for every
node-local chooser, the entropy-gain chooser included. -/

/-- fit at depth 0 is the majority leaf. -/
lemma fit_zero (ch : List Sample → Option (Nat × ℚ)) (S : List Sample) :
    fit ch 0 S = DTree.leaf (majority S) := rfl

/-- The one-step unfolding of fit at a positive depth. -/
lemma fit_succ (ch : List Sample → Option (Nat × ℚ)) (d : Nat) (S : List Sample) :
    fit ch (d + 1) S
      = if isPure S then DTree.leaf (majority S)
        else
          match ch S with
          | none => DTree.leaf (majority S)
          | some (f, t) =>
            DTree.node f t (fit ch d (S.filter (goesLeft f t)))
              (fit ch d (S.filter (fun s => !goesLeft f t s))) := rfl

/-- Splitting a list by a Boolean test splits every filter count. -/
lemma filter_length_add (S : List Sample) (P Q : Sample → Bool) :
    ((S.filter Q).filter P).length + ((S.filter (fun s => !Q s)).filter P).length
      = (S.filter P).length := by
  induction S with
  | nil => rfl
  | cons a S ih =>
    by_cases hq : Q a = true <;> by_cases hp : P a = true <;>
      simp [List.filter_cons, hq, hp, -List.filter_filter] <;> omega

/-- A leaf's correct count is the count of its stored class. -/
lemma correctCount_leaf (c : Bool) (S : List Sample) :
    correctCount (DTree.leaf c) S = countL S c := by
  unfold correctCount countL
  congr 1
  apply List.filter_congr
  intro s _
  show (predict (DTree.leaf c) s.x == s.y) = (s.y == c)
  cases s.y <;> cases c <;> rfl

/-- A node's correct count over a sample set is the sum of its children's
correct counts over the two filtered halves. -/
lemma correctCount_node (f : Nat) (t : ℚ) (l r : DTree) (S : List Sample) :
    correctCount (DTree.node f t l r) S
      = correctCount l (S.filter (goesLeft f t))
        + correctCount r (S.filter (fun s => !goesLeft f t s)) := by
  unfold correctCount
  have e1 : (S.filter (goesLeft f t)).filter
        (fun s => predict (DTree.node f t l r) s.x == s.y)
      = (S.filter (goesLeft f t)).filter (fun s => predict l s.x == s.y) := by
    apply List.filter_congr
    intro s hs
    have hQ : goesLeft f t s = true := (List.mem_filter.mp hs).2
    have hle : s.x.getD f 0 ≤ t := of_decide_eq_true hQ
    show (predict (DTree.node f t l r) s.x == s.y) = (predict l s.x == s.y)
    simp only [predict]
    rw [if_pos hle]
  have e2 : (S.filter (fun s => !goesLeft f t s)).filter
        (fun s => predict (DTree.node f t l r) s.x == s.y)
      = (S.filter (fun s => !goesLeft f t s)).filter
          (fun s => predict r s.x == s.y) := by
    apply List.filter_congr
    intro s hs
    have hQ : (!goesLeft f t s) = true := (List.mem_filter.mp hs).2
    have hfalse : goesLeft f t s = false := by simpa using hQ
    have hnle : ¬ (s.x.getD f 0 ≤ t) := of_decide_eq_false hfalse
    show (predict (DTree.node f t l r) s.x == s.y) = (predict r s.x == s.y)
    simp only [predict]
    rw [if_neg hnle]
  rw [← filter_length_add S (fun s => predict (DTree.node f t l r) s.x == s.y)
      (goesLeft f t), e1, e2]

/-- Class counts also split along any Boolean test. -/
lemma countL_split (S : List Sample) (Q : Sample → Bool) (c : Bool) :
    countL (S.filter Q) c + countL (S.filter (fun s => !Q s)) c = countL S c :=
  filter_length_add S (fun s => s.y == c) Q

/-- The majority class attains the larger of the two class counts. -/
lemma countL_majority (S : List Sample) :
    countL S (majority S) = max (countL S false) (countL S true) := by
  unfold majority
  by_cases h : countL S false < countL S true
  · rw [decide_eq_true h]
    exact (Nat.max_eq_right (Nat.le_of_lt h)).symm
  · rw [decide_eq_false h]
    exact (Nat.max_eq_left (Nat.le_of_not_lt h)).symm

/-- No single class beats the majority class. -/
lemma countL_le_majority (S : List Sample) (c : Bool) :
    countL S c ≤ countL S (majority S) := by
  rw [countL_majority]
  cases c
  · exact Nat.le_max_left _ _
  · exact Nat.le_max_right _ _

/-- Refining a majority leaf into two majority leaves along any Boolean test
never loses correct training samples. -/
lemma majority_split_ge (S : List Sample) (Q : Sample → Bool) :
    countL S (majority S)
      ≤ countL (S.filter Q) (majority (S.filter Q))
        + countL (S.filter (fun s => !Q s)) (majority (S.filter (fun s => !Q s))) := by
  rw [countL_majority S, countL_majority (S.filter Q),
    countL_majority (S.filter (fun s => !Q s)),
    ← countL_split S Q false, ← countL_split S Q true]
  exact max_le (Nat.add_le_add (Nat.le_max_left _ _) (Nat.le_max_left _ _))
    (Nat.add_le_add (Nat.le_max_right _ _) (Nat.le_max_right _ _))

/-- Any fitted tree matches at least as many training samples as the bare
majority leaf over the same samples. -/
lemma majority_le_fit (ch : List Sample → Option (Nat × ℚ)) (d : Nat)
    (S : List Sample) :
    countL S (majority S) ≤ correctCount (fit ch d S) S := by
  induction d generalizing S with
  | zero =>
    rw [fit_zero, correctCount_leaf]
  | succ d ih =>
    rw [fit_succ]
    by_cases hp : isPure S = true
    · rw [if_pos hp, correctCount_leaf]
    · rw [if_neg hp]
      cases hch : ch S with
      | none => rw [correctCount_leaf]
      | some ft =>
        obtain ⟨f, t⟩ := ft
        rw [correctCount_node]
        exact le_trans (majority_split_ge S (goesLeft f t))
          (Nat.add_le_add (ih _) (ih _))

/-- Raising the depth bound by one never lowers the number of correctly
classified training samples. -/
lemma correctCount_fit_mono (ch : List Sample → Option (Nat × ℚ)) (d : Nat)
    (S : List Sample) :
    correctCount (fit ch d S) S ≤ correctCount (fit ch (d + 1) S) S := by
  induction d generalizing S with
  | zero =>
    rw [fit_zero, correctCount_leaf]
    exact majority_le_fit ch 1 S
  | succ d ih =>
    rw [fit_succ ch d S, fit_succ ch (d + 1) S]
    by_cases hp : isPure S = true
    · rw [if_pos hp, if_pos hp]
    · rw [if_neg hp, if_neg hp]
      cases hch : ch S with
      | none => exact Nat.le_refl _
      | some ft =>
        obtain ⟨f, t⟩ := ft
        rw [correctCount_node, correctCount_node]
        exact Nat.add_le_add (ih _) (ih _)

/-- Claim C5: for every fixed training set, every node-local split chooser
(the entropy chooser of the pipeline included) and every depth D of the
swept range 1..24, the training accuracy of the depth-(D+1) tree is at
least that of the depth-D tree. -/
theorem trainAccuracy_monotone_depth (ch : List Sample → Option (Nat × ℚ))
    (S : List Sample) (D : Nat) (h1 : 1 ≤ D) (h2 : D ≤ 24) :
    score (fit ch D S) S ≤ score (fit ch (D + 1) S) S := by
  unfold score
  rcases Nat.eq_zero_or_pos S.length with h0 | hpos
  · rw [h0]
    simp
  · have hmono := correctCount_fit_mono ch D S
    gcongr


/-- A one-sample training set. -/
def oneSample : List Sample := [{ x := [0], y := true }]

/-- Claim C5, witness: the monotonicity theorem at depth 1 on a concrete
training set with a trivial chooser. -/
theorem trainAccuracy_monotone_depth_witness :
    score (fit (fun _ => none) 1 oneSample) oneSample
      ≤ score (fit (fun _ => none) 2 oneSample) oneSample :=
  trainAccuracy_monotone_depth (fun _ => none) oneSample 1 (by decide) (by decide)

/-! ## Claim C4: tie-breaking and determinism of fit

Cells 18 and 20 construct DecisionTreeClassifier(criterion, max_depth)
without a random_state.  On the training set below the root splits on
feature 0 and on feature 1 carry identical information gain under every
impurity measure; which one a gain-maximizing splitter picks is exactly the
tie-break, and the two choices predict different labels at the test point
(0, 1).  So the entropy criterion alone does not determine the predictions:
determinism needs a pinned tie-break (a fixed random_state). -/

/-- A negative training sample at the origin. -/
def sampleNeg : Sample := { x := [0, 0], y := false }

/-- A positive training sample at (1, 1). -/
def samplePos : Sample := { x := [1, 1], y := true }

/-- The two-sample training set with tied root splits. -/
def tiedTrain : List Sample := [sampleNeg, samplePos]

/-- A gain-maximizing chooser that resolves the root tie toward feature 0. -/
def chooseFeat0 : List Sample → Option (Nat × ℚ) := fun _ => some (0, 0)

/-- A gain-maximizing chooser that resolves the root tie toward feature 1. -/
def chooseFeat1 : List Sample → Option (Nat × ℚ) := fun _ => some (1, 0)

/-- Claim C4: on tiedTrain the two candidate root splits have equal
information gain under every impurity measure, both resulting depth-1 trees
classify the whole training set perfectly, yet they predict different
labels at the test point (0, 1) — the predictions are not determined by
the criterion and the depth alone. -/
theorem fit_tie_nondeterminism :
    (∀ imp : Nat → Nat → ℚ,
        infoGainW imp tiedTrain 0 0 = infoGainW imp tiedTrain 1 0)
    ∧ correctCount (fit chooseFeat0 1 tiedTrain) tiedTrain = 2
    ∧ correctCount (fit chooseFeat1 1 tiedTrain) tiedTrain = 2
    ∧ predict (fit chooseFeat0 1 tiedTrain) [0, 1] = false
    ∧ predict (fit chooseFeat1 1 tiedTrain) [0, 1] = true := by
  refine ⟨fun imp => rfl, by decide, by decide, by decide, by decide⟩

/-! ## Claim C8: a parse failure aborts feature extraction -/

/-- Claim C8: if any retained record's SMILES fails to parse, the extraction
loop raises — the run ends in an error and no final feature table exists at
all, so the failing record never appears in one with zero-valued or partial
descriptors, and the failure is reported (the error carries the first
failing record's SMILES) rather than silently skipped. -/
theorem parse_failure_aborts_extraction (parse : String → Option Mol)
    (dc : DescCalc) (rows : List LoadedRow) (r : LoadedRow) (s : String)
    (hmem : r ∈ rows) (hs : r.smiles = some s) (hp : parse s = none) :
    (∃ e, extractTable parse dc rows = Except.error e)
    ∧ ∀ ds, extractTable parse dc rows ≠ Except.ok ds := by
  have key : ∃ e, extractTable parse dc rows = Except.error e := by
    induction rows with
    | nil => cases hmem
    | cons a rs ih =>
      rcases List.mem_cons.mp hmem with rfl | hmem'
      · refine ⟨some s, ?_⟩
        simp only [extractTable, extractRow, hs, hp]
      · obtain ⟨e, he⟩ := ih hmem'
        cases hra : extractRow parse dc a with
        | error e' => exact ⟨e', by simp only [extractTable, hra]⟩
        | ok d => exact ⟨e, by simp only [extractTable, hra, he]⟩
  obtain ⟨e, he⟩ := key
  refine ⟨⟨e, he⟩, fun ds hds => ?_⟩
  rw [he] at hds
  exact Except.noConfusion hds

/-- A stub molecular representation. -/
def molStub : Mol := { graph := "CCO" }

/-- A stub parser accepting exactly the SMILES string CCO. -/
def parseStub : String → Option Mol :=
  fun s => if s = "CCO" then some molStub else none

/-- Stub descriptor calculators. -/
def dcStub : DescCalc :=
  { exactMolWt := fun _ => 46, calcTPSA := fun _ => 20
    numRotatableBonds := fun _ => 0, numHDonors := fun _ => 1
    numHAcceptors := fun _ => 1, molLogP := fun _ => 0 }

/-- A retained record whose SMILES parses. -/
def okRow : LoadedRow :=
  { compoundName := some "ethanol", iupacName := some "ethanol"
    smiles := some "CCO", bbbLabel := "BBB+", bbbClass := 1 }

/-- A retained record whose SMILES does not parse. -/
def badRow : LoadedRow :=
  { compoundName := some "junk", iupacName := none
    smiles := some "oops", bbbLabel := "BBB-", bbbClass := 0 }

/-- Claim C8, witness: extraction over a table holding one unparseable
record errors out and yields no feature table. -/
theorem parse_failure_aborts_extraction_witness :
    (∃ e, extractTable parseStub dcStub [okRow, badRow] = Except.error e)
    ∧ ∀ ds, extractTable parseStub dcStub [okRow, badRow] ≠ Except.ok ds :=
  parse_failure_aborts_extraction parseStub dcStub [okRow, badRow] badRow "oops"
    (by decide) rfl rfl
